import Mathlib

/-!
# Verification of the MazeGameEnv grid-world environment

Shallow embedding of `MazeGameEnv.py`: a Gymnasium environment in which an
agent moves on a 2-D grid of character cells (`'S'` start, `'G'` goal,
`'P'` death pit, `'#'` obstacle, `' '` empty), with a reset/step lifecycle,
a per-step reward, and a 200-step truncation limit.

Positions are pairs of integers (numpy integer arrays in the source; moves
may take a candidate coordinate to `-1`, so `Int` is used).  Rewards are
rationals (the source's float literals `1.0`, `-1.0`, `0.0`, `-0.01` are all
exactly representable, so `ℚ` is faithful for them).  The observation is the
current position divided componentwise by `(num_rows - 1, num_cols - 1)`
as float32; a zero denominator makes numpy produce a non-finite value
(`0.0/0.0 = NaN`), which the embedding models as `none`.
-/

namespace MazeGame

/-- A maze is a rectangular list of rows of cell characters
(`np.array(maze)` in the source). -/
abbrev Maze := List (List Char)

/-- Cell lookup `maze[row, col]` for in-bounds indices (the defaults are
never reached behind the bounds check of `is_valid_position`). -/
def cellAt (maze : Maze) (r c : Nat) : Char :=
  (maze.getD r []).getD c ' '

/-- Column indices (left to right, starting at `c`) of the cells of one row
that hold the character `t`. -/
def findCols (t : Char) (c : Nat) : List Char → List Nat
  | [] => []
  | ch :: rest =>
      if ch = t then c :: findCols t (c + 1) rest
      else findCols t (c + 1) rest

/-- `np.argwhere(maze == t)`: the positions holding `t`, in row-major
order, starting at row index `r`. -/
def argwhere (t : Char) (r : Nat) : Maze → List (Int × Int)
  | [] => []
  | row :: rest =>
      (findCols t 0 row).map (fun c : Nat => ((r : Int), (c : Int)))
        ++ argwhere t (r + 1) rest

/-- The environment: the immutable maze and derived data, plus the mutable
`current_pos` and `steps` counters (`self.*` fields of `MazeGameEnv`). -/
structure Env where
  maze : Maze
  start_pos : Int × Int
  goal_pos : Int × Int
  pit_pos : Int × Int
  current_pos : Int × Int
  num_rows : Nat
  num_cols : Nat
  max_steps : Nat
  steps : Nat
deriving DecidableEq, Repr

/-- `__init__`: derives `start_pos`, `goal_pos`, `pit_pos` as
`np.argwhere(maze == c)[0]`.  Indexing `[0]` on an empty `argwhere` result
raises `IndexError`, modelled as `none`; with several occurrences the first
(row-major) one is taken silently.  `max_steps` is fixed at 200. -/
def mkEnv (maze : Maze) : Option Env := do
  let s ← (argwhere 'S' 0 maze).head?
  let g ← (argwhere 'G' 0 maze).head?
  let p ← (argwhere 'P' 0 maze).head?
  some { maze := maze
         start_pos := s
         goal_pos := g
         pit_pos := p
         current_pos := s
         num_rows := maze.length
         num_cols := (maze.headD []).length
         max_steps := 200
         steps := 0 }

/-- `_get_obs`: `current_pos / [num_rows - 1, num_cols - 1]` in float32.
A zero denominator gives a non-finite float (`0.0/0.0 = NaN`), modelled as
`none`; otherwise the quotients are exact rationals in the model (faithful
for sign and `≤ 1` comparisons, which float32 division preserves). -/
def get_obs (e : Env) : Option (ℚ × ℚ) :=
  if (e.num_rows : Int) - 1 = 0 ∨ (e.num_cols : Int) - 1 = 0 then none
  else
    some ((e.current_pos.1 : ℚ) / (((e.num_rows : Int) - 1 : Int) : ℚ),
          (e.current_pos.2 : ℚ) / (((e.num_cols : Int) - 1 : Int) : ℚ))

/-- `reset(seed)`: restores `current_pos := start_pos`, `steps := 0` and
returns the observation together with an empty info dict.  The seed is only
forwarded to `super().reset` (RNG bookkeeping) and never influences the
result. -/
def reset (e : Env) (seed : Option Int) :
    Env × Option (ℚ × ℚ) × List (String × String) :=
  let e' := { e with current_pos := e.start_pos, steps := 0 }
  (e', get_obs e', [])

/-- The row/col delta of the `if action == 0 ... elif ...` chain in `step`;
any other action value falls through with no change. -/
def delta (action : Int) : Int × Int :=
  if action = 0 then (-1, 0)
  else if action = 1 then (1, 0)
  else if action = 2 then (0, -1)
  else if action = 3 then (0, 1)
  else (0, 0)

/-- The candidate `new_pos` computed at the top of `step`. -/
def candidate (e : Env) (action : Int) : Int × Int :=
  (e.current_pos.1 + (delta action).1, e.current_pos.2 + (delta action).2)

/-- `_is_valid_position`: inside the grid bounds and not on an obstacle. -/
def is_valid_position (e : Env) (pos : Int × Int) : Bool :=
  if pos.1 < 0 ∨ pos.2 < 0 ∨ (e.num_rows : Int) ≤ pos.1
      ∨ (e.num_cols : Int) ≤ pos.2 then false
  else if cellAt e.maze pos.1.toNat pos.2.toNat = '#' then false
  else true

/-- What `step` returns besides the updated environment: observation,
reward, terminated, truncated, and the `"reason"` value of the info dict. -/
structure StepResult where
  obs : Option (ℚ × ℚ)
  reward : ℚ
  terminated : Bool
  truncated : Bool
  reason : String
deriving DecidableEq, Repr

/-- The reward/termination block of `step`, deciding by priority against
the already-updated state `e'` (its `current_pos` may be unchanged); the
immutable `goal_pos`, `pit_pos` and `max_steps` are read from the
environment (they are the same in `e` and `e'`). -/
def stepOutcome (e e' : Env) : StepResult :=
  if e'.current_pos = e.goal_pos then
    ⟨get_obs e', 1, true, false, "Goal reached!"⟩
  else if e'.current_pos = e.pit_pos then
    ⟨get_obs e', -1, true, false, "Fell into death pit!"⟩
  else if e.max_steps ≤ e'.steps then
    ⟨get_obs e', 0, true, true, "Time limit reached"⟩
  else
    ⟨get_obs e', -1/100, false, false, "Continue exploring"⟩

/-- `step(action)`: move if the candidate position is valid, always
increment `steps`, then decide the outcome by priority against the
(possibly unchanged) position. -/
def step (e : Env) (action : Int) : Env × StepResult :=
  let new_pos := candidate e action
  let pos' := if is_valid_position e new_pos then new_pos else e.current_pos
  let e' := { e with current_pos := pos', steps := e.steps + 1 }
  (e', stepOutcome e e')

/-- Iterated `step`, keeping only the environment state. -/
def runSteps (e : Env) : List Int → Env
  | [] => e
  | a :: as => runSteps (step e a).1 as

/-- One call of the external driver: either `reset` (seed irrelevant to the
state) or `step` with some integer action. -/
inductive Op where
  | resetOp : Op
  | stepOp : Int → Op
deriving DecidableEq, Repr

/-- State effect of one driver call. -/
def applyOp (e : Env) : Op → Env
  | Op.resetOp => (reset e none).1
  | Op.stepOp a => (step e a).1

/-- State after a sequence of driver calls. -/
def run (e : Env) : List Op → Env
  | [] => e
  | op :: ops => run (applyOp e op) ops

/-- The 3×3 scenario maze of the spec:
`[["S","#","G"],[" "," "," "],[" ","P"," "]]`. -/
def testMaze : Maze :=
  [['S', '#', 'G'], [' ', ' ', ' '], [' ', 'P', ' ']]

/-- Placeholder environment for extracting from `Option Env`. -/
def defaultEnv : Env :=
  ⟨[], (0, 0), (0, 0), (0, 0), (0, 0), 0, 0, 0, 0⟩

/-- The environment constructed from `testMaze`. -/
def testEnv : Env := (mkEnv testMaze).getD defaultEnv

/-- A legal single-row maze: one start, one goal, one pit. -/
def rowMaze : Maze := [['S', 'G', 'P']]

/-- The environment constructed from `rowMaze`. -/
def rowEnv : Env := (mkEnv rowMaze).getD defaultEnv

/-- A maze with two goal cells (and exactly one start and one pit). -/
def dupMaze : Maze := [['S', 'G'], ['G', 'P']]

example : mkEnv testMaze = some
    { maze := testMaze, start_pos := (0, 0), goal_pos := (0, 2),
      pit_pos := (2, 1), current_pos := (0, 0), num_rows := 3,
      num_cols := 3, max_steps := 200, steps := 0 } := by decide

example : (step testEnv 3).1.current_pos = (0, 0) := by decide

example : (step testEnv 1).1.current_pos = (1, 0) := by decide

/-! ## Basic lemmas about `step`, `reset` and `run` -/

lemma step_env_eq (e : Env) (a : Int) :
    (step e a).1 = { e with
      current_pos :=
        if is_valid_position e (candidate e a) then candidate e a
        else e.current_pos,
      steps := e.steps + 1 } := rfl

lemma step_snd_eq (e : Env) (a : Int) :
    (step e a).2 = stepOutcome e (step e a).1 := rfl

lemma step_steps (e : Env) (a : Int) :
    (step e a).1.steps = e.steps + 1 := rfl

lemma step_current_pos (e : Env) (a : Int) :
    (step e a).1.current_pos =
      if is_valid_position e (candidate e a) then candidate e a
      else e.current_pos := rfl

lemma stepOutcome_cases (e e' : Env) :
    (e'.current_pos = e.goal_pos →
      stepOutcome e e' = ⟨get_obs e', 1, true, false, "Goal reached!"⟩) ∧
    (e'.current_pos ≠ e.goal_pos → e'.current_pos = e.pit_pos →
      stepOutcome e e' = ⟨get_obs e', -1, true, false, "Fell into death pit!"⟩) ∧
    (e'.current_pos ≠ e.goal_pos → e'.current_pos ≠ e.pit_pos →
      e.max_steps ≤ e'.steps →
      stepOutcome e e' = ⟨get_obs e', 0, true, true, "Time limit reached"⟩) ∧
    (e'.current_pos ≠ e.goal_pos → e'.current_pos ≠ e.pit_pos →
      e'.steps < e.max_steps →
      stepOutcome e e' =
        ⟨get_obs e', -1/100, false, false, "Continue exploring"⟩) := by
  unfold stepOutcome
  split_ifs with h1 h2 h3 <;>
    refine ⟨fun hg => ?_, fun hg hp => ?_, fun hg hp hs => ?_,
      fun hg hp hs => ?_⟩ <;>
    first
      | rfl
      | (exact absurd h1 hg)
      | (exact absurd hg h1)
      | (exact absurd h2 hp)
      | (exact absurd hp h2)
      | (exact absurd h3 (by omega))

lemma reset_env_eq (e : Env) (seed : Option Int) :
    (reset e seed).1 = { e with current_pos := e.start_pos, steps := 0 } := rfl

lemma runSteps_steps (as : List Int) (e : Env) :
    (runSteps e as).steps = e.steps + as.length := by
  induction as generalizing e with
  | nil => simp [runSteps]
  | cons a as ih =>
      rw [runSteps, ih, step_steps, List.length_cons]
      omega

lemma runSteps_statics (as : List Int) (e : Env) :
    (runSteps e as).goal_pos = e.goal_pos ∧
    (runSteps e as).pit_pos = e.pit_pos ∧
    (runSteps e as).max_steps = e.max_steps := by
  induction as generalizing e with
  | nil => exact ⟨rfl, rfl, rfl⟩
  | cons a as ih => exact (ih (step e a).1)

/-! ## Claim theorems -/

/-- C1: the outcome of `step` is decided by priority against the post-move
position: goal (+1.0, terminated), then pit (-1.0, terminated), then step
limit (0.0, terminated and truncated), then the -0.01 exploring penalty;
the goal and pit cases carry no step-count condition, so reaching the goal
pays +1.0 even on the 200th step. -/
theorem step_outcome_priority (e : Env) (a : Int) :
    ((step e a).1.current_pos = e.goal_pos →
      (step e a).2.reward = 1 ∧ (step e a).2.terminated = true ∧
      (step e a).2.truncated = false ∧ (step e a).2.reason = "Goal reached!") ∧
    ((step e a).1.current_pos ≠ e.goal_pos →
     (step e a).1.current_pos = e.pit_pos →
      (step e a).2.reward = -1 ∧ (step e a).2.terminated = true ∧
      (step e a).2.truncated = false ∧
      (step e a).2.reason = "Fell into death pit!") ∧
    ((step e a).1.current_pos ≠ e.goal_pos →
     (step e a).1.current_pos ≠ e.pit_pos →
     e.max_steps ≤ e.steps + 1 →
      (step e a).2.reward = 0 ∧ (step e a).2.terminated = true ∧
      (step e a).2.truncated = true ∧
      (step e a).2.reason = "Time limit reached") ∧
    ((step e a).1.current_pos ≠ e.goal_pos →
     (step e a).1.current_pos ≠ e.pit_pos →
     e.steps + 1 < e.max_steps →
      (step e a).2.reward = -1/100 ∧ (step e a).2.terminated = false ∧
      (step e a).2.truncated = false ∧
      (step e a).2.reason = "Continue exploring") := by
  obtain ⟨c1, c2, c3, c4⟩ := stepOutcome_cases e (step e a).1
  have hs : (step e a).1.steps = e.steps + 1 := rfl
  have hr : (step e a).2 = stepOutcome e (step e a).1 := rfl
  refine ⟨fun hg => ?_, fun hg hp => ?_, fun hg hp hn => ?_,
    fun hg hp hn => ?_⟩
  · rw [hr, c1 hg]; exact ⟨rfl, rfl, rfl, rfl⟩
  · rw [hr, c2 hg hp]; exact ⟨rfl, rfl, rfl, rfl⟩
  · rw [hr, c3 hg hp (hs ▸ hn)]; exact ⟨rfl, rfl, rfl, rfl⟩
  · rw [hr, c4 hg hp (hs ▸ hn)]; exact ⟨rfl, rfl, rfl, rfl⟩

/-- Witness for C1, on the spec's 3×3 maze: moving down from the start is
neither goal nor pit nor at the limit, so the exploring branch fires. -/
theorem step_outcome_priority_witness :
    (step testEnv 1).2.reward = -1/100 ∧
    (step testEnv 1).2.terminated = false ∧
    (step testEnv 1).2.truncated = false ∧
    (step testEnv 1).2.reason = "Continue exploring" :=
  (step_outcome_priority testEnv 1).2.2.2 (by decide) (by decide) (by decide)

/-- C6: `reset` restores `current_pos` to `start_pos` and `steps` to 0, and
returns the observation of that restored state (the normalized start
position) together with an empty info record. -/
theorem reset_restores_start (e : Env) (seed : Option Int) :
    (reset e seed).1.current_pos = e.start_pos ∧
    (reset e seed).1.steps = 0 ∧
    (reset e seed).2.1 = get_obs ((reset e seed).1) ∧
    (reset e seed).2.2 = ([] : List (String × String)) :=
  ⟨rfl, rfl, rfl, rfl⟩

/-- C10: two consecutive `reset` calls with the same seed return the same
observation and the same (empty) metadata. -/
theorem reset_idempotent (e : Env) (seed : Option Int) :
    (reset ((reset e seed).1) seed).2 = (reset e seed).2 := rfl

/-- C8: `step` and `reset` change at most `current_pos` and `steps`: the
maze, the three derived positions, the dimensions and the step ceiling are
untouched, so they stay fixed for the environment's lifetime. -/
theorem step_reset_frame (e : Env) (a : Int) (seed : Option Int) :
    (step e a).1.maze = e.maze ∧
    (step e a).1.start_pos = e.start_pos ∧
    (step e a).1.goal_pos = e.goal_pos ∧
    (step e a).1.pit_pos = e.pit_pos ∧
    (step e a).1.num_rows = e.num_rows ∧
    (step e a).1.num_cols = e.num_cols ∧
    (step e a).1.max_steps = e.max_steps ∧
    (reset e seed).1.maze = e.maze ∧
    (reset e seed).1.start_pos = e.start_pos ∧
    (reset e seed).1.goal_pos = e.goal_pos ∧
    (reset e seed).1.pit_pos = e.pit_pos ∧
    (reset e seed).1.num_rows = e.num_rows ∧
    (reset e seed).1.num_cols = e.num_cols ∧
    (reset e seed).1.max_steps = e.max_steps :=
  ⟨rfl, rfl, rfl, rfl, rfl, rfl, rfl, rfl, rfl, rfl, rfl, rfl, rfl, rfl⟩

/-- C7: an action value outside {0, 1, 2, 3} falls through the `if`/`elif`
chain with a zero delta, so the candidate equals the current position, the
position is unchanged, and the step is otherwise processed normally (the
count still increments; no error is raised). -/
theorem invalid_action_is_noop (e : Env) (a : Int)
    (h0 : a ≠ 0) (h1 : a ≠ 1) (h2 : a ≠ 2) (h3 : a ≠ 3) :
    candidate e a = e.current_pos ∧
    (step e a).1.current_pos = e.current_pos ∧
    (step e a).1.steps = e.steps + 1 := by
  have hd : delta a = (0, 0) := by
    unfold delta
    rw [if_neg h0, if_neg h1, if_neg h2, if_neg h3]
  have hc : candidate e a = e.current_pos := by
    unfold candidate
    rw [hd]
    exact Prod.ext (add_zero _) (add_zero _)
  refine ⟨hc, ?_, rfl⟩
  rw [step_current_pos, hc]
  split_ifs <;> rfl

/-- Witness for C7 at action value 7 on the 3×3 test maze. -/
theorem invalid_action_is_noop_witness :
    candidate testEnv 7 = testEnv.current_pos ∧
    (step testEnv 7).1.current_pos = testEnv.current_pos ∧
    (step testEnv 7).1.steps = testEnv.steps + 1 :=
  invalid_action_is_noop testEnv 7 (by decide) (by decide) (by decide)
    (by decide)

/-- C3: when the current position is neither goal nor pit and the candidate
position is rejected by the validity check (out of bounds or an obstacle),
the move is absorbed: the position is unchanged, the step count still
increments, and — as long as the step limit is not hit on this step — the
result is the -0.01 exploring outcome. -/
theorem invalid_move_absorbed (e : Env) (a : Int)
    (hg : e.current_pos ≠ e.goal_pos) (hp : e.current_pos ≠ e.pit_pos)
    (hv : is_valid_position e (candidate e a) = false) :
    (step e a).1.current_pos = e.current_pos ∧
    (step e a).1.steps = e.steps + 1 ∧
    (e.steps + 1 < e.max_steps →
      (step e a).2.reward = -1/100 ∧
      (step e a).2.terminated = false ∧
      (step e a).2.truncated = false ∧
      (step e a).2.reason = "Continue exploring") := by
  have hcur : (step e a).1.current_pos = e.current_pos := by
    rw [step_current_pos, hv]
    rfl
  refine ⟨hcur, rfl, fun hn => ?_⟩
  obtain ⟨-, -, -, c4⟩ := stepOutcome_cases e (step e a).1
  have hr : (step e a).2 = stepOutcome e (step e a).1 := rfl
  rw [hr, c4 (hcur ▸ hg) (hcur ▸ hp) hn]
  exact ⟨rfl, rfl, rfl, rfl⟩

/-- Witness for C3: from the start of the spec's 3×3 maze, moving right
runs into the obstacle at (0,1) and is absorbed. -/
theorem invalid_move_absorbed_witness :
    (step testEnv 3).1.current_pos = testEnv.current_pos ∧
    (step testEnv 3).1.steps = testEnv.steps + 1 ∧
    (step testEnv 3).2.reward = -1/100 ∧
    (step testEnv 3).2.terminated = false ∧
    (step testEnv 3).2.truncated = false ∧
    (step testEnv 3).2.reason = "Continue exploring" := by
  obtain ⟨h1, h2, h3⟩ :=
    invalid_move_absorbed testEnv 3 (by decide) (by decide) (by decide)
  exact ⟨h1, h2, h3 (by decide)⟩

/-- C2: after `n` calls to `step` since the last `reset`, `steps` equals
`n` (each call increments by exactly one, whether or not the move was
applied); and when `max_steps = 200`, a 200th step whose post-move position
is neither goal nor pit returns the time-limit outcome: reward 0.0,
terminated and truncated, reason "Time limit reached". -/
theorem step_count_time_limit (e : Env) (as : List Int) (a : Int)
    (hmax : e.max_steps = 200) :
    (runSteps ((reset e none).1) as).steps = as.length ∧
    (as.length = 199 →
      (step (runSteps ((reset e none).1) as) a).1.current_pos ≠ e.goal_pos →
      (step (runSteps ((reset e none).1) as) a).1.current_pos ≠ e.pit_pos →
      (step (runSteps ((reset e none).1) as) a).2.reward = 0 ∧
      (step (runSteps ((reset e none).1) as) a).2.terminated = true ∧
      (step (runSteps ((reset e none).1) as) a).2.truncated = true ∧
      (step (runSteps ((reset e none).1) as) a).2.reason
        = "Time limit reached") := by
  have h0 : ((reset e none).1).steps = 0 := rfl
  have hsteps : (runSteps ((reset e none).1) as).steps = as.length := by
    rw [runSteps_steps, h0, Nat.zero_add]
  refine ⟨hsteps, fun hlen hg hp => ?_⟩
  obtain ⟨hgoal, hpit, hms⟩ := runSteps_statics as ((reset e none).1)
  have hgoal' : ((reset e none).1).goal_pos = e.goal_pos := rfl
  have hpit' : ((reset e none).1).pit_pos = e.pit_pos := rfl
  have hms' : ((reset e none).1).max_steps = e.max_steps := rfl
  obtain ⟨-, -, c3, -⟩ :=
    stepOutcome_cases (runSteps ((reset e none).1) as)
      (step (runSteps ((reset e none).1) as) a).1
  have hr : (step (runSteps ((reset e none).1) as) a).2 =
      stepOutcome (runSteps ((reset e none).1) as)
        (step (runSteps ((reset e none).1) as) a).1 := rfl
  have hpost : (step (runSteps ((reset e none).1) as) a).1.steps =
      (runSteps ((reset e none).1) as).steps + 1 := rfl
  rw [hr, c3 (by rw [hgoal, hgoal']; exact hg) (by rw [hpit, hpit']; exact hp)
    (by rw [hpost, hsteps, hlen, hms, hms', hmax])]
  exact ⟨rfl, rfl, rfl, rfl⟩

lemma step_env_absorbed (e : Env) (a : Int)
    (h : is_valid_position e (candidate e a) = false) :
    (step e a).1 = { e with steps := e.steps + 1 } := by
  rw [step_env_eq, h]
  rfl

lemma runSteps_replicate_absorbed (n : Nat) (e : Env)
    (h : is_valid_position e (candidate e 0) = false) :
    runSteps e (List.replicate n 0) = { e with steps := e.steps + n } := by
  induction n generalizing e with
  | zero => rfl
  | succ n ih =>
      rw [List.replicate_succ, runSteps, step_env_absorbed e 0 h,
        ih _ (by exact h)]
      congr 1
      show e.steps + 1 + n = e.steps + (n + 1)
      omega

/-- Witness for C2: 199 absorbed up-moves from the start of the 3×3 maze,
then a 200th step, which hits the time limit. -/
theorem step_count_time_limit_witness :
    (runSteps ((reset testEnv none).1) (List.replicate 199 0)).steps
      = (List.replicate 199 0).length ∧
    (step (runSteps ((reset testEnv none).1) (List.replicate 199 0)) 0).2.reward
      = 0 ∧
    (step (runSteps ((reset testEnv none).1)
      (List.replicate 199 0)) 0).2.terminated = true ∧
    (step (runSteps ((reset testEnv none).1)
      (List.replicate 199 0)) 0).2.truncated = true ∧
    (step (runSteps ((reset testEnv none).1) (List.replicate 199 0)) 0).2.reason
      = "Time limit reached" := by
  obtain ⟨h1, h2⟩ :=
    step_count_time_limit testEnv (List.replicate 199 0) 0 (by decide)
  have henv := runSteps_replicate_absorbed 199 ((reset testEnv none).1)
    (by decide)
  exact ⟨h1, h2 (by rw [List.length_replicate]) (by rw [henv]; decide)
    (by rw [henv]; decide)⟩

/-! ## Validity invariant of the current position -/

lemma is_valid_position_congr (e e' : Env) (hm : e'.maze = e.maze)
    (hr : e'.num_rows = e.num_rows) (hc : e'.num_cols = e.num_cols)
    (p : Int × Int) : is_valid_position e' p = is_valid_position e p := by
  unfold is_valid_position
  rw [hm, hr, hc]

lemma is_valid_position_eq_true_iff (e : Env) (p : Int × Int) :
    is_valid_position e p = true ↔
      0 ≤ p.1 ∧ p.1 < (e.num_rows : Int) ∧ 0 ≤ p.2 ∧
      p.2 < (e.num_cols : Int) ∧
      cellAt e.maze p.1.toNat p.2.toNat ≠ '#' := by
  unfold is_valid_position
  split_ifs with h1 h2
  · simp only [Bool.false_eq_true, false_iff]
    rintro ⟨a, b, c, d, -⟩
    rcases h1 with h | h | h | h <;> omega
  · simp only [Bool.false_eq_true, false_iff]
    rintro ⟨-, -, -, -, hne⟩
    exact hne h2
  · simp only [true_iff]
    push_neg at h1
    exact ⟨by omega, by omega, by omega, by omega, h2⟩

lemma applyOp_statics (e : Env) (op : Op) :
    (applyOp e op).maze = e.maze ∧ (applyOp e op).start_pos = e.start_pos ∧
    (applyOp e op).num_rows = e.num_rows ∧
    (applyOp e op).num_cols = e.num_cols := by
  cases op <;> exact ⟨rfl, rfl, rfl, rfl⟩

lemma applyOp_current_valid (e : Env) (op : Op)
    (hs : is_valid_position e e.start_pos = true)
    (hc : is_valid_position e e.current_pos = true) :
    is_valid_position (applyOp e op) (applyOp e op).current_pos = true := by
  obtain ⟨hm, -, hr, hcn⟩ := applyOp_statics e op
  rw [is_valid_position_congr _ _ hm hr hcn]
  cases op with
  | resetOp =>
      have : (applyOp e Op.resetOp).current_pos = e.start_pos := rfl
      rw [this]
      exact hs
  | stepOp a =>
      have : (applyOp e (Op.stepOp a)).current_pos =
          if is_valid_position e (candidate e a) then candidate e a
          else e.current_pos := rfl
      rw [this]
      by_cases h : is_valid_position e (candidate e a) = true
      · rw [if_pos h]
        exact h
      · rw [if_neg h]
        exact hc

lemma run_current_valid (ops : List Op) (e : Env)
    (hs : is_valid_position e e.start_pos = true)
    (hc : is_valid_position e e.current_pos = true) :
    is_valid_position (run e ops) (run e ops).current_pos = true := by
  induction ops generalizing e with
  | nil => exact hc
  | cons op ops ih =>
      rw [run]
      refine ih (applyOp e op) ?_ (applyOp_current_valid e op hs hc)
      obtain ⟨hm, hsp, hr, hcn⟩ := applyOp_statics e op
      rw [is_valid_position_congr _ _ hm hr hcn, hsp]
      exact hs

/-- C9: if the start position is valid (in bounds, not an obstacle) and the
agent starts there, then after any sequence of `reset` and `step` calls with
arbitrary integer actions, the current position is still inside the grid
and its cell is not an obstacle: the position only ever changes to a
candidate accepted by the validity check. -/
theorem position_stays_legal (e : Env) (ops : List Op)
    (hs : is_valid_position e e.start_pos = true)
    (hc : e.current_pos = e.start_pos) :
    0 ≤ (run e ops).current_pos.1 ∧
    (run e ops).current_pos.1 < ((run e ops).num_rows : Int) ∧
    0 ≤ (run e ops).current_pos.2 ∧
    (run e ops).current_pos.2 < ((run e ops).num_cols : Int) ∧
    cellAt (run e ops).maze (run e ops).current_pos.1.toNat
      (run e ops).current_pos.2.toNat ≠ '#' := by
  refine (is_valid_position_eq_true_iff _ _).mp
    (run_current_valid ops e hs ?_)
  rw [hc]
  exact hs

/-- Witness for C9: a short mixed run on the 3×3 maze. -/
theorem position_stays_legal_witness :
    0 ≤ (run testEnv [Op.stepOp 3, Op.stepOp 1, Op.resetOp,
      Op.stepOp 0]).current_pos.1 ∧
    (run testEnv [Op.stepOp 3, Op.stepOp 1, Op.resetOp,
      Op.stepOp 0]).current_pos.1 <
      ((run testEnv [Op.stepOp 3, Op.stepOp 1, Op.resetOp,
        Op.stepOp 0]).num_rows : Int) ∧
    0 ≤ (run testEnv [Op.stepOp 3, Op.stepOp 1, Op.resetOp,
      Op.stepOp 0]).current_pos.2 ∧
    (run testEnv [Op.stepOp 3, Op.stepOp 1, Op.resetOp,
      Op.stepOp 0]).current_pos.2 <
      ((run testEnv [Op.stepOp 3, Op.stepOp 1, Op.resetOp,
        Op.stepOp 0]).num_cols : Int) ∧
    cellAt (run testEnv [Op.stepOp 3, Op.stepOp 1, Op.resetOp,
      Op.stepOp 0]).maze
      (run testEnv [Op.stepOp 3, Op.stepOp 1, Op.resetOp,
        Op.stepOp 0]).current_pos.1.toNat
      (run testEnv [Op.stepOp 3, Op.stepOp 1, Op.resetOp,
        Op.stepOp 0]).current_pos.2.toNat ≠ '#' :=
  position_stays_legal testEnv
    [Op.stepOp 3, Op.stepOp 1, Op.resetOp, Op.stepOp 0]
    (by decide) (by decide)

/-! ## The observation box and the degenerate-grid division -/

/-- C4 (amended): for a grid with at least two rows and two columns, the
normalization denominators are nonzero, so the observation of any in-bounds
position is defined and both components lie in [0, 1]. -/
theorem observation_in_unit_box (e : Env)
    (hr2 : 2 ≤ e.num_rows) (hc2 : 2 ≤ e.num_cols)
    (h1 : 0 ≤ e.current_pos.1) (h2 : e.current_pos.1 < (e.num_rows : Int))
    (h3 : 0 ≤ e.current_pos.2) (h4 : e.current_pos.2 < (e.num_cols : Int)) :
    ∃ q : ℚ × ℚ, get_obs e = some q ∧
      0 ≤ q.1 ∧ q.1 ≤ 1 ∧ 0 ≤ q.2 ∧ q.2 ≤ 1 := by
  have hR : ¬((e.num_rows : Int) - 1 = 0 ∨ (e.num_cols : Int) - 1 = 0) := by
    push_neg
    constructor <;> omega
  have hRpos : (0 : ℚ) < (((e.num_rows : Int) - 1 : Int) : ℚ) := by
    have : (0 : Int) < (e.num_rows : Int) - 1 := by omega
    exact_mod_cast this
  have hCpos : (0 : ℚ) < (((e.num_cols : Int) - 1 : Int) : ℚ) := by
    have : (0 : Int) < (e.num_cols : Int) - 1 := by omega
    exact_mod_cast this
  refine ⟨((e.current_pos.1 : ℚ) / (((e.num_rows : Int) - 1 : Int) : ℚ),
           (e.current_pos.2 : ℚ) / (((e.num_cols : Int) - 1 : Int) : ℚ)),
    ?_, ?_, ?_, ?_, ?_⟩
  · rw [get_obs, if_neg hR]
  · exact div_nonneg (by exact_mod_cast h1) (le_of_lt hRpos)
  · rw [div_le_one hRpos]
    have : e.current_pos.1 ≤ (e.num_rows : Int) - 1 := by omega
    exact_mod_cast this
  · exact div_nonneg (by exact_mod_cast h3) (le_of_lt hCpos)
  · rw [div_le_one hCpos]
    have : e.current_pos.2 ≤ (e.num_cols : Int) - 1 := by omega
    exact_mod_cast this

/-- Witness for the amended C4 on the 3×3 test maze. -/
theorem observation_in_unit_box_witness :
    ∃ q : ℚ × ℚ, get_obs testEnv = some q ∧
      0 ≤ q.1 ∧ q.1 ≤ 1 ∧ 0 ≤ q.2 ∧ q.2 ≤ 1 :=
  observation_in_unit_box testEnv (by decide) (by decide) (by decide)
    (by decide) (by decide) (by decide)

/-- Counterexample to C4 as stated: the single-row maze `["S","G","P"]`
satisfies the construction precondition (exactly one start, goal and pit
cell), yet the observation of its reachable start position is undefined —
`num_rows - 1 = 0`, so numpy's division `0.0/0.0` yields NaN (modelled as
`none`), which is not a pair of values in [0, 1]. -/
theorem observation_unit_counterexample :
    rowMaze.flatten.count 'S' = 1 ∧ rowMaze.flatten.count 'G' = 1 ∧
    rowMaze.flatten.count 'P' = 1 ∧
    mkEnv rowMaze = some rowEnv ∧
    (reset rowEnv none).2.1 = none ∧
    get_obs rowEnv = none := by decide

/-! ## Construction: required and duplicated special cells -/

lemma findCols_eq_nil_iff (t : Char) (row : List Char) :
    ∀ c : Nat, findCols t c row = [] ↔ t ∉ row := by
  induction row with
  | nil =>
      intro c
      simp [findCols]
  | cons ch rest ih =>
      intro c
      rw [findCols]
      split_ifs with h
      · simp [h]
      · rw [ih]
        constructor
        · intro hnr hmem
          rcases List.mem_cons.mp hmem with he | hm
          · exact h he.symm
          · exact hnr hm
        · intro hnc hm
          exact hnc (List.mem_cons_of_mem ch hm)

lemma argwhere_eq_nil_iff (t : Char) (maze : Maze) :
    ∀ r : Nat, argwhere t r maze = [] ↔ ∀ row ∈ maze, t ∉ row := by
  induction maze with
  | nil =>
      intro r
      simp [argwhere]
  | cons row rest ih =>
      intro r
      rw [argwhere, List.append_eq_nil, List.map_eq_nil_iff,
        findCols_eq_nil_iff t row 0, ih (r + 1), List.forall_mem_cons]

lemma argwhere_nil_iff_join (t : Char) (maze : Maze) :
    argwhere t 0 maze = [] ↔ t ∉ maze.flatten := by
  rw [argwhere_eq_nil_iff t maze 0]
  simp [List.mem_flatten]

/-- C5 (amended): construction fails exactly when one of the start, goal or
pit cells is absent from the grid.  (With several occurrences of a cell the
source silently takes the first one in row-major order, so duplication does
not make construction fail — see the counterexample.) -/
theorem construction_requires_all_cells (maze : Maze) :
    mkEnv maze = none ↔
      ('S' ∉ maze.flatten ∨ 'G' ∉ maze.flatten ∨ 'P' ∉ maze.flatten) := by
  rw [← argwhere_nil_iff_join 'S', ← argwhere_nil_iff_join 'G',
    ← argwhere_nil_iff_join 'P']
  cases hS : argwhere 'S' 0 maze <;>
    cases hG : argwhere 'G' 0 maze <;>
      cases hP : argwhere 'P' 0 maze <;>
        simp [mkEnv, hS, hG, hP]

/-- Counterexample to C5 as stated: a maze with two goal cells does not
make construction fail — the environment is built with the first goal
occurrence, at (0,1), silently. -/
theorem construction_unique_counterexample :
    dupMaze.flatten.count 'S' = 1 ∧ dupMaze.flatten.count 'G' = 2 ∧
    dupMaze.flatten.count 'P' = 1 ∧
    (mkEnv dupMaze).isSome = true ∧
    (Option.map Env.goal_pos (mkEnv dupMaze)) = some (0, 1) := by decide

end MazeGame
